import Mathlib

/-!
Verification development for the AccessKE WhatsApp ticketing bot.

The definitions below are a shallow embedding of the TypeScript source:

* `normalizePhoneNumber` / `validatePhoneNumber` — `src/utils/phoneNormalizer.ts`
* session store and lock registry — `src/services/redis.service.ts`
* booking engine (`completeBooking` / `cancelBooking`) — `src/services/ticket.service.ts`
* IntaSend webhook handler — `src/controllers/webhook.controller.ts`
* conversation routing (`handleMessage`) — `src/handlers/conversation.handler.ts`

Database rows are lists of records; a Prisma interactive transaction is a
function that either returns the updated database or an error, in which case
the caller keeps the original database (rollback).  Randomness
(`crypto.randomBytes`) is modelled by an oracle `gen : Nat → String` giving the
successive draws.  I/O collaborators (WhatsApp sends, QR rendering) are
modelled as appended outbox events; they never change database state.
-/

namespace AccessKE

/-! ## Phone normalizer (`src/utils/phoneNormalizer.ts`) -/

/-- Characters removed by `phoneNumber.replace(/[\s-]/g, '')`:
JavaScript `\s` whitespace (ASCII range) or a hyphen. -/
def isStrippedChar (c : Char) : Bool :=
  c = ' ' || c = '\t' || c = '\n' || c = '\r' || c = '\x0b' || c = '\x0c' || c = '-'

/-- `phoneNumber.replace(/[\s-]/g, '')` on the character list. -/
def cleanChars (l : List Char) : List Char :=
  l.filter (fun c => !isStrippedChar c)

/-- `cleaned.startsWith('+') ? cleaned.slice(1) : cleaned` -/
def dropLeadingPlus (l : List Char) : List Char :=
  if l.head? = some '+' then l.tail else l

/-- The country-code prefix `254`. -/
def kenyaPrefix : List Char := ['2', '5', '4']

/-- Branch structure of `normalizePhoneNumber` after cleaning and `+`-dropping:
`startsWith('254')`, then `startsWith('0')`, then `length === 9`, else throw. -/
def normAfterPlus (w : List Char) : Option (List Char) :=
  if w.take 3 = kenyaPrefix then some w
  else if w.head? = some '0' then some (kenyaPrefix ++ w.tail)
  else if w.length = 9 then some (kenyaPrefix ++ w)
  else none

/-- Core of `normalizePhoneNumber`, on character lists. -/
def normChars (l : List Char) : Option (List Char) :=
  normAfterPlus (dropLeadingPlus (cleanChars l))

/-- `normalizePhoneNumber(phoneNumber: string): string` — throws on invalid
format, modelled as `Except`. -/
def normalizePhoneNumber (s : String) : Except String String :=
  match normChars s.toList with
  | some l => .ok (String.mk l)
  | none => .error ("Invalid phone number format: " ++ s)

/-- ASCII digit test (`[0-9]` in the regex). -/
def isDigitChar (c : Char) : Bool :=
  '0' ≤ c && c ≤ '9'

/-- The capture group of the validation regex:
`[17](?:(?:[0-9][0-9])|(?:0[0-8])|(?:4[0-8]))[0-9]{6}`. -/
def subscriberMatch : List Char → Bool
  | c :: d1 :: d2 :: rest =>
    (c = '1' || c = '7')
      && ((isDigitChar d1 && isDigitChar d2)
          || (d1 = '0' && ('0' ≤ d2 && d2 ≤ '8'))
          || (d1 = '4' && ('0' ≤ d2 && d2 ≤ '8')))
      && (rest.length = 6 && rest.all isDigitChar)
  | _ => false

/-- The optional prefix alternation `(?:254|\+254|0)?` of the validation
regex, as the list of strings it can consume. -/
def prefixOptions : List (List Char) :=
  [[], ['2', '5', '4'], ['+', '2', '5', '4'], ['0']]

/-- Does `pre` occur at the start of `l`? -/
def listStartsWith : List Char → List Char → Bool
  | [], _ => true
  | _ :: _, [] => false
  | a :: as, b :: bs => a = b && listStartsWith as bs

/-- Anchored match of `^(?:254|\+254|0)?([17]...)$` on a character list:
some choice of the optional prefix consumes a prefix of `l` and the capture
group matches the remainder exactly. -/
def validateChars (l : List Char) : Bool :=
  prefixOptions.any (fun p => listStartsWith p l && subscriberMatch (l.drop p.length))

/-- `validatePhoneNumber(phoneNumber: string): boolean` — strips `[\s-]` and
tests the operator regex. -/
def validatePhoneNumber (s : String) : Bool :=
  validateChars (cleanChars s.toList)

/-- Spec-side reading of the capture group: a 9-digit subscriber string whose
leading digit is an operator prefix digit (`1` or `7`). -/
def SpecSubscriber (l : List Char) : Prop :=
  l.length = 9 ∧ (l.head? = some '1' ∨ l.head? = some '7') ∧ ∀ c ∈ l, isDigitChar c = true

/-! ### Lemmas about the normalizer -/

theorem mem_cleanChars {c : Char} {l : List Char} (h : c ∈ cleanChars l) :
    isStrippedChar c = false := by
  have := (List.mem_filter.mp h).2
  simpa using this

theorem cleanChars_eq_self {l : List Char} (h : ∀ c ∈ l, isStrippedChar c = false) :
    cleanChars l = l := by
  apply List.filter_eq_self.mpr
  intro a ha
  simp [h a ha]

theorem dropLeadingPlus_subset {l : List Char} : ∀ c ∈ dropLeadingPlus l, c ∈ l := by
  intro c hc
  unfold dropLeadingPlus at hc
  split at hc
  · exact List.mem_of_mem_tail hc
  · exact hc

theorem dropLeadingPlus_of_head {l : List Char} (h : l.head? ≠ some '+') :
    dropLeadingPlus l = l := by
  unfold dropLeadingPlus
  simp [h]

/-- Every successful `normAfterPlus` output is `254 ++ rest` where the
characters of `rest` come from the input. -/
theorem normAfterPlus_shape {w m : List Char} (h : normAfterPlus w = some m) :
    ∃ rest, m = kenyaPrefix ++ rest ∧ ∀ c ∈ rest, c ∈ w := by
  unfold normAfterPlus at h
  by_cases h1 : w.take 3 = kenyaPrefix
  · rw [if_pos h1] at h
    injection h with h
    refine ⟨w.drop 3, ?_, fun c hc => List.drop_subset 3 w hc⟩
    rw [← h, ← h1]
    exact (List.take_append_drop 3 w).symm
  · rw [if_neg h1] at h
    by_cases h2 : w.head? = some '0'
    · rw [if_pos h2] at h
      injection h with h
      exact ⟨w.tail, h.symm, fun c hc => List.tail_subset w hc⟩
    · rw [if_neg h2] at h
      by_cases h3 : w.length = 9
      · rw [if_pos h3] at h
        injection h with h
        exact ⟨w, h.symm, fun c hc => hc⟩
      · rw [if_neg h3] at h
        exact absurd h (by simp)

/-- Every successful `normChars` output is `254 ++ rest` where `rest` has no
stripped characters (its characters come from the cleaned input). -/
theorem normChars_shape {l m : List Char} (h : normChars l = some m) :
    ∃ rest, m = kenyaPrefix ++ rest ∧ ∀ c ∈ rest, c ∈ dropLeadingPlus (cleanChars l) :=
  normAfterPlus_shape h

theorem normChars_output_clean {l m : List Char} (h : normChars l = some m) :
    cleanChars m = m := by
  obtain ⟨rest, rfl, hrest⟩ := normChars_shape h
  apply cleanChars_eq_self
  intro c hc
  rcases List.mem_append.mp hc with hk | hr
  · fin_cases hk <;> rfl
  · exact mem_cleanChars (dropLeadingPlus_subset _ (hrest c hr))

theorem take_three_kenya (rest : List Char) : (kenyaPrefix ++ rest).take 3 = kenyaPrefix := rfl

theorem normChars_idem {l m : List Char} (h : normChars l = some m) :
    normChars m = some m := by
  obtain ⟨rest, hshape, _⟩ := normChars_shape h
  have hclean : cleanChars m = m := normChars_output_clean h
  have hplus : dropLeadingPlus m = m := by
    apply dropLeadingPlus_of_head
    rw [hshape]
    have h2 : (kenyaPrefix ++ rest).head? = some '2' := rfl
    rw [h2]
    simp
  unfold normChars
  rw [hclean, hplus, hshape]
  unfold normAfterPlus
  rw [if_pos (take_three_kenya rest)]

theorem listStartsWith_iff {p l : List Char} :
    listStartsWith p l = true ↔ ∃ t, l = p ++ t := by
  induction p generalizing l with
  | nil => simp [listStartsWith]
  | cons a as ih =>
    cases l with
    | nil => simp [listStartsWith]
    | cons b bs =>
      simp only [listStartsWith, Bool.and_eq_true, decide_eq_true_eq, ih,
        List.cons_append, List.cons.injEq]
      constructor
      · rintro ⟨rfl, t, rfl⟩
        exact ⟨t, rfl, rfl⟩
      · rintro ⟨t, rfl, rfl⟩
        exact ⟨rfl, t, rfl⟩

theorem subscriberMatch_iff {l : List Char} :
    subscriberMatch l = true ↔ SpecSubscriber l := by
  cases l with
  | nil => simp [subscriberMatch, SpecSubscriber]
  | cons c l1 =>
    cases l1 with
    | nil => simp [subscriberMatch, SpecSubscriber]
    | cons d1 l2 =>
      cases l2 with
      | nil => simp [subscriberMatch, SpecSubscriber]
      | cons d2 rest =>
        constructor
        · intro h
          simp only [subscriberMatch, Bool.and_eq_true, Bool.or_eq_true, decide_eq_true_eq,
            List.all_eq_true] at h
          obtain ⟨⟨hc, hd⟩, hlen, hall⟩ := h
          have hd1 : isDigitChar d1 = true := by
            rcases hd with (⟨h1, _⟩ | ⟨h1, _, _⟩) | ⟨h1, _, _⟩
            · exact h1
            · subst h1; rfl
            · subst h1; rfl
          have hd2 : isDigitChar d2 = true := by
            rcases hd with (⟨_, h2⟩ | ⟨_, h2, h3⟩) | ⟨_, h2, h3⟩
            · exact h2
            · simp only [isDigitChar, Bool.and_eq_true, decide_eq_true_eq]
              exact ⟨h2, le_trans h3 (by decide)⟩
            · simp only [isDigitChar, Bool.and_eq_true, decide_eq_true_eq]
              exact ⟨h2, le_trans h3 (by decide)⟩
          refine ⟨?_, ?_, ?_⟩
          · simp only [List.length_cons]
            omega
          · rcases hc with rfl | rfl
            · exact Or.inl rfl
            · exact Or.inr rfl
          · intro x hx
            rcases List.mem_cons.mp hx with rfl | hx1
            · rcases hc with rfl | rfl <;> rfl
            · rcases List.mem_cons.mp hx1 with rfl | hx2
              · exact hd1
              · rcases List.mem_cons.mp hx2 with rfl | hx3
                · exact hd2
                · exact hall x hx3
        · rintro ⟨hlen, hc, hall⟩
          simp only [subscriberMatch, Bool.and_eq_true, Bool.or_eq_true, decide_eq_true_eq,
            List.all_eq_true]
          have hc9 : c = '1' ∨ c = '7' := by
            simpa using hc
          refine ⟨⟨hc9, Or.inl (Or.inl ⟨hall d1 (by simp), hall d2 (by simp)⟩)⟩, ?_, ?_⟩
          · simp only [List.length_cons] at hlen
            omega
          · exact fun x hx => hall x (by simp [hx])

theorem validateChars_iff {l : List Char} :
    validateChars l = true ↔
      ∃ p ∈ prefixOptions, ∃ sub, l = p ++ sub ∧ SpecSubscriber sub := by
  unfold validateChars
  rw [List.any_eq_true]
  constructor
  · rintro ⟨p, hp, hmatch⟩
    rw [Bool.and_eq_true, listStartsWith_iff] at hmatch
    obtain ⟨⟨t, rfl⟩, hsub⟩ := hmatch
    rw [List.drop_left] at hsub
    exact ⟨p, hp, t, rfl, subscriberMatch_iff.mp hsub⟩
  · rintro ⟨p, hp, sub, rfl, hsub⟩
    refine ⟨p, hp, ?_⟩
    rw [Bool.and_eq_true, listStartsWith_iff, List.drop_left]
    exact ⟨⟨sub, rfl⟩, subscriberMatch_iff.mpr hsub⟩

theorem head_of_take_cons (n : Nat) {l t : List Char} {a : Char}
    (h : l.take (n + 1) = a :: t) : l.head? = some a := by
  cases l with
  | nil => simp at h
  | cons b bs =>
    rw [List.take_succ_cons] at h
    injection h with h1 _
    rw [h1]
    rfl

/-- If the cleaned input decomposes as an accepted regex prefix followed by a
valid subscriber block, `normChars` succeeds and returns `254 ++ subscriber`. -/
theorem normChars_validate_decomp {l p sub m : List Char}
    (hp : p ∈ prefixOptions) (hdec : cleanChars l = p ++ sub)
    (hsub : SpecSubscriber sub) (hn : normChars l = some m) :
    m = kenyaPrefix ++ sub := by
  unfold normChars at hn
  rw [hdec] at hn
  have hp4 : p = [] ∨ p = ['2', '5', '4'] ∨ p = ['+', '2', '5', '4'] ∨ p = ['0'] := by
    simpa [prefixOptions] using hp
  obtain ⟨hlen, hhead, _⟩ := hsub
  rcases hp4 with rfl | rfl | rfl | rfl
  · rw [List.nil_append] at hn
    have hdp : dropLeadingPlus sub = sub := by
      apply dropLeadingPlus_of_head
      rcases hhead with h | h <;> rw [h] <;> simp
    rw [hdp] at hn
    unfold normAfterPlus at hn
    have h1 : sub.take 3 ≠ kenyaPrefix := by
      intro hc
      have := head_of_take_cons 2 hc
      rcases hhead with h | h <;> rw [h] at this <;> exact absurd this (by simp)
    have h2 : sub.head? ≠ some '0' := by
      rcases hhead with h | h <;> rw [h] <;> simp
    rw [if_neg h1, if_neg h2, if_pos hlen] at hn
    injection hn with hn
    exact hn.symm
  · have hdp : dropLeadingPlus (['2', '5', '4'] ++ sub) = kenyaPrefix ++ sub := by
      apply dropLeadingPlus_of_head
      simp
    rw [hdp] at hn
    unfold normAfterPlus at hn
    rw [if_pos (take_three_kenya sub)] at hn
    injection hn with hn
    exact hn.symm
  · have hdp : dropLeadingPlus (['+', '2', '5', '4'] ++ sub) = kenyaPrefix ++ sub := by
      rfl
    rw [hdp] at hn
    unfold normAfterPlus at hn
    rw [if_pos (take_three_kenya sub)] at hn
    injection hn with hn
    exact hn.symm
  · have hdp : dropLeadingPlus (['0'] ++ sub) = '0' :: sub := by
      apply dropLeadingPlus_of_head
      simp
    rw [hdp] at hn
    unfold normAfterPlus at hn
    have h1 : ('0' :: sub).take 3 ≠ kenyaPrefix := by
      intro hc
      have := head_of_take_cons 2 hc
      simp at this
    rw [if_neg h1, if_pos (by rfl)] at hn
    injection hn with hn
    exact hn.symm

/-! ### Claim C8 -/

/-- C8: for every non-empty input, `normalizePhoneNumber` strips whitespace
and hyphens, drops one leading `+`, then accepts a `254`-prefixed remainder
as-is, replaces a leading `0` by `254`, prepends `254` to an exactly
9-character remainder, and otherwise fails with the invalid-phone error;
and `validatePhoneNumber` accepts exactly the inputs whose cleaned form is an
optional `254`/`+254`/`0` prefix followed by a 9-digit subscriber block whose
first digit is `1` or `7` (the operator-prefix regex). -/
theorem C8_phone_normalizer :
    (∀ s : String, s ≠ "" →
      ((dropLeadingPlus (cleanChars s.toList)).take 3 = kenyaPrefix →
          normalizePhoneNumber s = .ok (String.mk (dropLeadingPlus (cleanChars s.toList))))
      ∧ ((dropLeadingPlus (cleanChars s.toList)).take 3 ≠ kenyaPrefix →
          (dropLeadingPlus (cleanChars s.toList)).head? = some '0' →
          normalizePhoneNumber s =
            .ok (String.mk (kenyaPrefix ++ (dropLeadingPlus (cleanChars s.toList)).tail)))
      ∧ ((dropLeadingPlus (cleanChars s.toList)).take 3 ≠ kenyaPrefix →
          (dropLeadingPlus (cleanChars s.toList)).head? ≠ some '0' →
          (dropLeadingPlus (cleanChars s.toList)).length = 9 →
          normalizePhoneNumber s =
            .ok (String.mk (kenyaPrefix ++ dropLeadingPlus (cleanChars s.toList))))
      ∧ ((dropLeadingPlus (cleanChars s.toList)).take 3 ≠ kenyaPrefix →
          (dropLeadingPlus (cleanChars s.toList)).head? ≠ some '0' →
          (dropLeadingPlus (cleanChars s.toList)).length ≠ 9 →
          normalizePhoneNumber s = .error ("Invalid phone number format: " ++ s)))
    ∧ (∀ s : String, validatePhoneNumber s = true ↔
        ∃ p ∈ prefixOptions, ∃ sub, cleanChars s.toList = p ++ sub ∧ SpecSubscriber sub) := by
  constructor
  · intro s _hs
    refine ⟨?_, ?_, ?_, ?_⟩
    · intro h1
      unfold normalizePhoneNumber normChars normAfterPlus
      rw [if_pos h1]
    · intro h1 h2
      unfold normalizePhoneNumber normChars normAfterPlus
      rw [if_neg h1, if_pos h2]
    · intro h1 h2 h3
      unfold normalizePhoneNumber normChars normAfterPlus
      rw [if_neg h1, if_neg h2, if_pos h3]
    · intro h1 h2 h3
      unfold normalizePhoneNumber normChars normAfterPlus
      rw [if_neg h1, if_neg h2, if_neg h3]
  · intro s
    unfold validatePhoneNumber
    exact validateChars_iff

theorem C8_phone_normalizer_witness :
    normalizePhoneNumber "0712345678" = .ok "254712345678"
    ∧ (validatePhoneNumber "0712345678" = true ↔
        ∃ p ∈ prefixOptions, ∃ sub,
          cleanChars "0712345678".toList = p ++ sub ∧ SpecSubscriber sub) := by
  constructor
  · exact (C8_phone_normalizer.1 "0712345678" (by decide)).2.1 (by decide) (by decide)
  · exact C8_phone_normalizer.2 "0712345678"

/-! ### Claim C9 -/

/-- C9 (amended): normalization is idempotent on accepted inputs, and
validation is preserved forward by normalization (if the raw input validates,
so does its normalized form).  The reverse implication in the original claim
fails: see the counterexample. -/
theorem C9_normalize_idempotent_validate_mono :
    (∀ x y : String, normalizePhoneNumber x = .ok y → normalizePhoneNumber y = .ok y)
    ∧ (∀ x y : String, normalizePhoneNumber x = .ok y →
        validatePhoneNumber x = true → validatePhoneNumber y = true) := by
  constructor
  · intro x y h
    unfold normalizePhoneNumber at h ⊢
    cases hn : normChars x.toList with
    | none => rw [hn] at h; exact absurd h (by simp)
    | some l =>
      rw [hn] at h
      injection h with h
      subst h
      have hl : (String.mk l).toList = l := rfl
      rw [hl, normChars_idem hn]
  · intro x y h hval
    unfold normalizePhoneNumber at h
    cases hn : normChars x.toList with
    | none => rw [hn] at h; exact absurd h (by simp)
    | some m =>
      rw [hn] at h
      injection h with h
      subst h
      unfold validatePhoneNumber at hval ⊢
      rw [validateChars_iff] at hval
      rw [validateChars_iff]
      obtain ⟨p, hp, sub, hdec, hsub⟩ := hval
      have hm : m = kenyaPrefix ++ sub := normChars_validate_decomp hp hdec hsub hn
      have hclean : cleanChars (String.mk m).toList = m := by
        have : (String.mk m).toList = m := rfl
        rw [this]
        exact normChars_output_clean hn
      exact ⟨kenyaPrefix, by decide, sub, by rw [hclean, hm], hsub⟩

/-- C9 counterexample: `"+0712345678"` is accepted by the normalizer (the `+`
is dropped, then the leading `0` is replaced by `254`), yet the validation
regex rejects the raw input (no `+0` prefix alternative) while accepting its
normalized form — so `validate(x) ⇔ validate(normalize(x))` fails. -/
theorem C9_counterexample :
    normalizePhoneNumber "+0712345678" = .ok "254712345678"
    ∧ validatePhoneNumber "+0712345678" = false
    ∧ validatePhoneNumber "254712345678" = true :=
  ⟨rfl, rfl, rfl⟩

theorem C9_normalize_idempotent_validate_mono_witness :
    normalizePhoneNumber "254712345678" = .ok "254712345678"
    ∧ validatePhoneNumber "254712345678" = true :=
  ⟨C9_normalize_idempotent_validate_mono.1 "0712345678" "254712345678" rfl,
   C9_normalize_idempotent_validate_mono.2 "0712345678" "254712345678" rfl rfl⟩

/-! ## Session store and lock registry (`src/services/redis.service.ts`)

Redis is modelled as an association list of keys to values (with the TTL
recorded next to the value as `SETEX` leaves it), plus an availability flag
where the source's `catch` paths are claim-relevant.  JSON serialization is
the identity on the `Session` record. -/

/-- `BotState` (`src/types/session.ts`), including the states the
conversation handler routes on. -/
inductive BotState
  | IDLE
  | SELECTING_CATEGORY
  | BROWSING_EVENTS
  | SELECTING_TIER
  | SELECTING_QUANTITY
  | CONFIRMING_ORDER
  | AWAITING_PAYMENT_METHOD
  | AWAITING_PAYMENT_PHONE
  | AWAITING_STK_PUSH
deriving DecidableEq, Repr

/-- `SessionData` — the typed data bag; `none` is an absent key. -/
structure SessionData where
  eventId : Option String := none
  selectedCategory : Option String := none
  tierId : Option String := none
  quantity : Option Nat := none
  totalAmount : Option Nat := none
  paymentMethod : Option String := none
  tempBookingId : Option String := none
deriving DecidableEq, Repr

/-- `{ ...existing.data, ...data }` — right-biased shallow merge over the
defined keys of the patch. -/
def mergeData (existing patch : SessionData) : SessionData where
  eventId := patch.eventId <|> existing.eventId
  selectedCategory := patch.selectedCategory <|> existing.selectedCategory
  tierId := patch.tierId <|> existing.tierId
  quantity := patch.quantity <|> existing.quantity
  totalAmount := patch.totalAmount <|> existing.totalAmount
  paymentMethod := patch.paymentMethod <|> existing.paymentMethod
  tempBookingId := patch.tempBookingId <|> existing.tempBookingId

structure Session where
  state : BotState
  data : SessionData
deriving DecidableEq, Repr

/-- The session keyspace: key ↦ (session value, TTL written by `SETEX`). -/
abbrev SessionStore := List (String × Session × Nat)

def storeGet (store : SessionStore) (key : String) : Option (Session × Nat) :=
  (List.find? (fun e => e.1 = key) store).map (fun e => e.2)

def storeSetex (store : SessionStore) (key : String) (ttl : Nat) (v : Session) : SessionStore :=
  (key, v, ttl) :: List.filter (fun e => !(e.1 = key : Bool)) store

def sessionKey (normalized : String) : String := "session:" ++ normalized

/-- `getSession` — default `{state: IDLE, data: {}}` when the key is missing;
the catch path (unavailable store, invalid phone) returns the same default. -/
def getSession (store : SessionStore) (phoneNumber : String) : Session :=
  match normalizePhoneNumber phoneNumber with
  | .error _ => ⟨.IDLE, {}⟩
  | .ok normalized =>
    match storeGet store (sessionKey normalized) with
    | none => ⟨.IDLE, {}⟩
    | some (s, _) => s

/-- `updateSession` — read-modify-write with shallow merge on `data`, then
`SETEX` with the configured TTL; the catch path leaves the store unchanged. -/
def updateSession (sessionTTL : Nat) (store : SessionStore) (phoneNumber : String)
    (state : BotState) (data : SessionData) : SessionStore :=
  match normalizePhoneNumber phoneNumber with
  | .error _ => store
  | .ok normalized =>
    let existing := getSession store phoneNumber
    storeSetex store (sessionKey normalized) sessionTTL ⟨state, mergeData existing.data data⟩

/-- `clearSession` — writes an IDLE session (a `SETEX`, not a delete). -/
def clearSession (sessionTTL : Nat) (store : SessionStore) (phoneNumber : String) : SessionStore :=
  match normalizePhoneNumber phoneNumber with
  | .error _ => store
  | .ok normalized => storeSetex store (sessionKey normalized) sessionTTL ⟨.IDLE, {}⟩

/-- One lock entry: `SET lock:<resource> <owner> PX <ttl millis> NX`. -/
structure LockEntry where
  key : String
  owner : String
  ttlMillis : Nat
deriving DecidableEq, Repr

abbrev LockStore := List LockEntry

/-- `acquireLock` — set-if-absent with expiry; any failure inside the `try`
(unreachable store, or the owner phone failing normalization) is caught and
returns `true` so the operation proceeds (degrade-open). -/
def acquireLock (redisAvailable : Bool) (store : LockStore) (resourceKey : String)
    (ttlSeconds : Nat) (ownerPhoneNumber : String) : LockStore × Bool :=
  match normalizePhoneNumber ownerPhoneNumber with
  | .error _ => (store, true)
  | .ok normalized =>
    if redisAvailable then
      let key := "lock:" ++ resourceKey
      match List.find? (fun e => e.key = key) store with
      | some _ => (store, false)
      | none => (⟨key, normalized, ttlSeconds * 1000⟩ :: store, true)
    else (store, true)

/-! ### Claim C6 -/

theorem storeGet_setex_self (store : SessionStore) (key : String) (ttl : Nat) (v : Session) :
    storeGet (storeSetex store key ttl v) key = some (v, ttl) := by
  unfold storeGet storeSetex
  rw [List.find?_cons_of_pos]
  · rfl
  · simp

theorem find?_filter_comm {α : Type} {p q : α → Bool} (l : List α)
    (h : ∀ a, p a = true → q a = true) :
    List.find? p (List.filter q l) = List.find? p l := by
  induction l with
  | nil => rfl
  | cons a l ih =>
    cases hq : q a with
    | false =>
      have hp : p a = false := by
        cases hp : p a
        · rfl
        · have := h a hp
          rw [hq] at this
          exact absurd this (by simp)
      rw [List.filter_cons_of_neg (by simp [hq])]
      rw [List.find?_cons_of_neg _ (by simp [hp])]
      exact ih
    | true =>
      rw [List.filter_cons_of_pos (by simp [hq])]
      cases hp : p a with
      | true =>
        rw [List.find?_cons_of_pos _ (by simp [hp]), List.find?_cons_of_pos _ (by simp [hp])]
      | false =>
        rw [List.find?_cons_of_neg _ (by simp [hp]), List.find?_cons_of_neg _ (by simp [hp])]
        exact ih

theorem storeGet_setex_other (store : SessionStore) (key k : String) (ttl : Nat) (v : Session)
    (hk : k ≠ key) :
    storeGet (storeSetex store key ttl v) k = storeGet store k := by
  unfold storeGet storeSetex
  rw [List.find?_cons_of_neg _ (by simpa using Ne.symm hk)]
  congr 1
  apply find?_filter_comm
  intro e he
  simp only [decide_eq_true_eq] at he
  simp [he, hk]

theorem option_orElse_eq {α : Type} (o o' : Option α) :
    (o <|> o') = if o.isSome then o else o' := by
  cases o <;> rfl

/-- C6: `updateSession(phone, state, P)` on a stored session with data `D`
stores `⟨state, D ⊕ P⟩` under the session key with the TTL reset to the
configured value, leaves every other key unchanged, and `⊕` is the
right-biased shallow field merge (patch keys override, absent patch keys
preserve the stored value). -/
theorem C6_updateSession_merge (ttl : Nat) (store : SessionStore) (phone np : String)
    (st0 : BotState) (D : SessionData) (ttl0 : Nat) (newState : BotState) (P : SessionData)
    (hnorm : normalizePhoneNumber phone = .ok np)
    (hstored : storeGet store (sessionKey np) = some (⟨st0, D⟩, ttl0)) :
    storeGet (updateSession ttl store phone newState P) (sessionKey np)
        = some (⟨newState, mergeData D P⟩, ttl)
    ∧ (∀ k, k ≠ sessionKey np →
        storeGet (updateSession ttl store phone newState P) k = storeGet store k)
    ∧ mergeData D P =
        ⟨if P.eventId.isSome then P.eventId else D.eventId,
         if P.selectedCategory.isSome then P.selectedCategory else D.selectedCategory,
         if P.tierId.isSome then P.tierId else D.tierId,
         if P.quantity.isSome then P.quantity else D.quantity,
         if P.totalAmount.isSome then P.totalAmount else D.totalAmount,
         if P.paymentMethod.isSome then P.paymentMethod else D.paymentMethod,
         if P.tempBookingId.isSome then P.tempBookingId else D.tempBookingId⟩ := by
  have hget : getSession store phone = ⟨st0, D⟩ := by
    unfold getSession
    rw [hnorm]
    simp only [hstored]
  refine ⟨?_, ?_, ?_⟩
  · unfold updateSession
    rw [hnorm]
    simp only [hget]
    exact storeGet_setex_self store (sessionKey np) ttl _
  · intro k hk
    unfold updateSession
    rw [hnorm]
    simp only [hget]
    exact storeGet_setex_other store (sessionKey np) k ttl _ hk
  · unfold mergeData
    simp only [option_orElse_eq]

theorem C6_updateSession_merge_witness :
    storeGet (updateSession 600
        [(sessionKey "254712345678",
          ⟨.BROWSING_EVENTS, { eventId := some "E1" }⟩, 300)]
        "0712345678" .SELECTING_TIER { tierId := some "T1" }) (sessionKey "254712345678")
      = some (⟨.SELECTING_TIER,
          mergeData { eventId := some "E1" } { tierId := some "T1" }⟩, 600) :=
  (C6_updateSession_merge 600
      [(sessionKey "254712345678", ⟨.BROWSING_EVENTS, { eventId := some "E1" }⟩, 300)]
      "0712345678" "254712345678" .BROWSING_EVENTS { eventId := some "E1" } 300
      .SELECTING_TIER { tierId := some "T1" } rfl rfl).1

/-! ### Claim C7 -/

/-- C7 (amended): `acquireLock` is set-if-absent with expiry — when the store
is reachable and the owner phone normalizes, it returns `true` exactly when it
installed `lock:<resource> ↦ <normalized owner>` with the TTL in
milliseconds (the key being previously absent), and `false` when the key is
already held; degrade-open: when the backing store is unreachable, or the
owner phone fails normalization (the error is swallowed by the same `catch`),
it returns `true` without installing anything. -/
theorem C7_acquireLock_spec (store : LockStore) (resourceKey : String)
    (ttlSeconds : Nat) (owner np : String) :
    (normalizePhoneNumber owner = .ok np →
      (List.find? (fun e => e.key = "lock:" ++ resourceKey) store = none →
        acquireLock true store resourceKey ttlSeconds owner
          = (⟨"lock:" ++ resourceKey, np, ttlSeconds * 1000⟩ :: store, true))
      ∧ (∀ e, List.find? (fun e => e.key = "lock:" ++ resourceKey) store = some e →
          acquireLock true store resourceKey ttlSeconds owner = (store, false)))
    ∧ (acquireLock false store resourceKey ttlSeconds owner = (store, true))
    ∧ (∀ msg, normalizePhoneNumber owner = .error msg →
        ∀ avail, acquireLock avail store resourceKey ttlSeconds owner = (store, true)) := by
  refine ⟨?_, ?_, ?_⟩
  · intro hnorm
    constructor
    · intro habsent
      unfold acquireLock
      rw [hnorm]
      simp [habsent]
    · intro e hfound
      unfold acquireLock
      rw [hnorm]
      simp [hfound]
  · unfold acquireLock
    cases hnorm : normalizePhoneNumber owner with
    | error msg => rfl
    | ok v => simp
  · intro msg hnorm avail
    unfold acquireLock
    rw [hnorm]

/-- C7 counterexample: with the backing store reachable, an owner tag that
fails phone normalization makes `acquireLock` return `true` while installing
nothing — so "returns true exactly when it installed the lock, except when
the store is unreachable" is false as stated. -/
theorem C7_counterexample :
    acquireLock true [] "tier:T1:user:X" 600 "abc" = ([], true)
    ∧ normalizePhoneNumber "abc" = .error "Invalid phone number format: abc" :=
  ⟨by rfl, by rfl⟩

theorem C7_acquireLock_spec_witness :
    acquireLock true [] "tier:T1:user:254712345678" 600 "0712345678"
      = (⟨"lock:" ++ "tier:T1:user:254712345678", "254712345678", 600 * 1000⟩ :: [], true)
    ∧ acquireLock false [] "tier:T1:user:254712345678" 600 "0712345678" = ([], true) :=
  ⟨((C7_acquireLock_spec [] "tier:T1:user:254712345678" 600 "0712345678"
        "254712345678").1 rfl).1 rfl,
   (C7_acquireLock_spec [] "tier:T1:user:254712345678" 600 "0712345678"
        "254712345678").2.1⟩

/-! ## Booking engine (`src/services/ticket.service.ts`)

The database is three row lists.  A Prisma interactive transaction is a
function returning the updated database or an error; on error the caller
keeps the pre-transaction database (rollback).  `crypto.randomBytes`-driven
code generation is an oracle `gen : Nat → String` supplying the successive
draws of `generateTicketCode`. -/

/-- Prisma `BookingStatus` enum values used by the service. -/
inductive BookingStatus
  | PENDING
  | AWAITING_PAYMENT
  | PAID
  | CANCELLED
  | EXPIRED
deriving DecidableEq, Repr

structure Booking where
  id : String
  userId : String
  ticketTierId : String
  quantity : Nat
  status : BookingStatus
  paymentReference : Option String
  paymentPhoneNumber : Option String
deriving DecidableEq, Repr

structure TicketTier where
  id : String
  eventId : String
  quantity : Nat
  quantitySold : Int
deriving DecidableEq, Repr

structure Ticket where
  id : String
  uniqueCode : String
  bookingId : String
  isRedeemed : Bool
deriving DecidableEq, Repr

structure DB where
  bookings : List Booking
  tiers : List TicketTier
  tickets : List Ticket
deriving DecidableEq, Repr

/-- `AppError(message, statusCode)` (`src/utils/AppError.ts`). -/
structure AppError where
  message : String
  statusCode : Nat
deriving DecidableEq, Repr

/-- The `{ id, uniqueCode, isRedeemed }` projection `completeBooking` returns. -/
structure TicketOut where
  id : String
  uniqueCode : String
  isRedeemed : Bool
deriving DecidableEq, Repr

def findBooking (db : DB) (bookingId : String) : Option Booking :=
  List.find? (fun b => b.id = bookingId) db.bookings

def bookingTickets (db : DB) (bookingId : String) : List Ticket :=
  List.filter (fun t => t.bookingId = bookingId) db.tickets

def ticketCodeExists (db : DB) (code : String) : Bool :=
  db.tickets.any (fun t => t.uniqueCode = code)

def toTicketOut (t : Ticket) : TicketOut :=
  ⟨t.id, t.uniqueCode, t.isRedeemed⟩

/-- `status: { in: ['PENDING', 'AWAITING_PAYMENT'] }`. -/
def statusProcessable : BookingStatus → Bool
  | .PENDING => true
  | .AWAITING_PAYMENT => true
  | _ => false

/-- JavaScript truthiness of the optional payment phone:
`...(paymentPhone && { paymentPhoneNumber: paymentPhone })` spreads nothing
for `undefined` or the empty string. -/
def optTruthy : Option String → Bool
  | none => false
  | some s => !(s = "" : Bool)

/-- One draw loop of `generateTicketCode` + `prisma.ticket.findUnique`:
up to 10 draws against the ticket table, then `AppError(..., 500)`. -/
def drawUniqueCode (gen : Nat → String) (db : DB) : Nat → Nat → Except AppError (String × Nat)
  | _, 0 => .error ⟨"Failed to generate unique ticket code after 10 attempts", 500⟩
  | ctr, fuel + 1 =>
    let code := gen ctr
    if ticketCodeExists db code then drawUniqueCode gen db (ctr + 1) fuel
    else .ok (code, ctr + 1)

/-- The pre-generation loop over `quantity` tickets (step 2 of the source). -/
def genCodes (gen : Nat → String) (db : DB) : Nat → Nat → Except AppError (List String × Nat)
  | ctr, 0 => .ok ([], ctr)
  | ctr, n + 1 =>
    match drawUniqueCode gen db ctr 10 with
    | .error e => .error e
    | .ok (c, ctr1) =>
      match genCodes gen db ctr1 n with
      | .error e => .error e
      | .ok (cs, ctr2) => .ok (c :: cs, ctr2)

/-- Pre-transaction part of `completeBooking` (steps 1–2): the idempotency
shortcut, the 404/400 checks and code pre-generation.  Read-only on the
database.  `inl` is an early result, `inr` the data carried into the
transaction.  The missing-booking 404 arm is listed first here; the source
tests the `PAID`-shortcut first, but on a missing row that test is vacuously
false (`existingBooking?.status`), so the order is equivalent, as is testing
`statusProcessable` positively instead of the negated source condition. -/
def completeStep1 (gen : Nat → String) (db : DB) (bookingId : String) :
    Sum (Except AppError (List TicketOut)) (String × Nat × List String) :=
  match findBooking db bookingId with
  | none => .inl (.error ⟨"Booking not found", 404⟩)
  | some b =>
    if b.status = .PAID ∧ (bookingTickets db bookingId).length > 0 then
      .inl (.ok ((bookingTickets db bookingId).map toTicketOut))
    else if statusProcessable b.status then
      match genCodes gen db 0 b.quantity with
      | .error e => .inl (.error e)
      | .ok (codes, _) => .inr (b.ticketTierId, b.quantity, codes)
    else
      .inl (.error ⟨"Booking cannot be completed in its current state", 400⟩)

/-- The booking row as the winning conditional update leaves it:
`status = PAID`, `paymentReference = paymentRef`, and `paymentPhoneNumber`
only when the optional phone is truthy. -/
def paidBooking (b : Booking) (ref : String) (phone : Option String) : Booking :=
  { b with status := .PAID, paymentReference := some ref,
           paymentPhoneNumber := if optTruthy phone then phone else b.paymentPhoneNumber }

/-- A ticket row inserted by `createMany` (row ids are database-generated;
the model reuses the unique code as the id). -/
def newTicket (bookingId c : String) : Ticket := ⟨c, c, bookingId, false⟩

def conflictErr : AppError := ⟨"Booking was already processed by another transaction", 409⟩

/-- The atomic transaction of `completeBooking` (step 3): conditional
`updateMany` to `PAID` (the optimistic lock, aborting with 409 when it
matches zero rows), `quantitySold` increment (a missing tier row aborts and,
like every abort, rolls the transaction back), `createMany` of the
pre-generated tickets, and the final `findMany` over the inserted codes.
On error the returned database is the input one (rollback). -/
def completeTx (db : DB) (bookingId paymentRef : String) (paymentPhone : Option String)
    (tierId : String) (quantity : Nat) (codes : List String) :
    DB × Except AppError (List TicketOut) :=
  if (db.bookings.filter (fun b => b.id = bookingId ∧ statusProcessable b.status)).length = 0 then
    (db, .error conflictErr)
  else if db.tiers.any (fun t => t.id = tierId) then
    (⟨db.bookings.map (fun b =>
        if b.id = bookingId ∧ statusProcessable b.status then
          paidBooking b paymentRef paymentPhone
        else b),
      db.tiers.map (fun t =>
        if t.id = tierId then { t with quantitySold := t.quantitySold + (quantity : Int) }
        else t),
      db.tickets ++ codes.map (newTicket bookingId)⟩,
     .ok (((db.tickets ++ codes.map (newTicket bookingId)).filter
        (fun tk => tk.bookingId = bookingId ∧ tk.uniqueCode ∈ codes)).map toTicketOut))
  else
    (db, .error ⟨"Failed to complete booking: tier not found", 500⟩)

/-- `completeBooking(bookingId, paymentRef, paymentPhone?)`. -/
def completeBooking (gen : Nat → String) (db : DB) (bookingId paymentRef : String)
    (paymentPhone : Option String) : DB × Except AppError (List TicketOut) :=
  match completeStep1 gen db bookingId with
  | .inl r => (db, r)
  | .inr (tierId, quantity, codes) =>
    completeTx db bookingId paymentRef paymentPhone tierId quantity codes

def cancelConflictErr : AppError :=
  ⟨"Booking was already cancelled or modified by another transaction", 409⟩

/-- The atomic transaction of `cancelBooking`: conditional `updateMany`
`PAID → CANCELLED` (409 on a zero-row match) then `quantitySold` decrement.
Tickets are not touched; on error the input database is kept (rollback). -/
def cancelTx (db : DB) (bookingId tierId : String) (quantity : Nat) :
    DB × Except AppError Unit :=
  if (db.bookings.filter (fun b => b.id = bookingId ∧ b.status = .PAID)).length = 0 then
    (db, .error cancelConflictErr)
  else if db.tiers.any (fun t => t.id = tierId) then
    (⟨db.bookings.map (fun b =>
        if b.id = bookingId ∧ b.status = .PAID then { b with status := .CANCELLED } else b),
      db.tiers.map (fun t =>
        if t.id = tierId then { t with quantitySold := t.quantitySold - (quantity : Int) }
        else t),
      db.tickets⟩, .ok ())
  else
    (db, .error ⟨"Failed to cancel booking: tier not found", 500⟩)

/-- `cancelBooking(bookingId, reason?)`. -/
def cancelBooking (db : DB) (bookingId : String) (_reason : Option String) :
    DB × Except AppError Unit :=
  match findBooking db bookingId with
  | none => (db, .error ⟨"Booking not found", 404⟩)
  | some b =>
    if b.status = .PAID then cancelTx db bookingId b.ticketTierId b.quantity
    else (db, .error ⟨"Booking cannot be cancelled in its current state", 400⟩)

/-! ### Interleaving model for two concurrent `completeBooking` calls

Each invocation is two atomic database steps: the read-only pre-transaction
part (`completeStep1`) and the transaction (`completeTx`) — the transaction
is atomic by the database, the pre-part only reads.  A schedule is the list
of which invocation runs its next step. -/

inductive CBPhase
  | notStarted
  | ready (tierId : String) (quantity : Nat) (codes : List String)
  | finished (result : Except AppError (List TicketOut))

structure CBInv where
  bookingId : String
  paymentRef : String
  paymentPhone : Option String
  gen : Nat → String
  phase : CBPhase

def stepInv (db : DB) (inv : CBInv) : DB × CBInv :=
  match inv.phase with
  | .notStarted =>
    match completeStep1 inv.gen db inv.bookingId with
    | .inl r => (db, { inv with phase := .finished r })
    | .inr (tierId, quantity, codes) => (db, { inv with phase := .ready tierId quantity codes })
  | .ready tierId quantity codes =>
    let res := completeTx db inv.bookingId inv.paymentRef inv.paymentPhone tierId quantity codes
    (res.1, { inv with phase := .finished res.2 })
  | .finished _ => (db, inv)

def runRace : List Bool → DB × CBInv × CBInv → DB × CBInv × CBInv
  | [], s => s
  | true :: rest, (db, a, b) =>
    let r := stepInv db a
    runRace rest (r.1, r.2, b)
  | false :: rest, (db, a, b) =>
    let r := stepInv db b
    runRace rest (r.1, a, r.2)

/-- The six interleavings of two two-step invocations
(`true` = invocation A runs its next step). -/
def interleavings2 : List (List Bool) :=
  [[true, true, false, false], [true, false, true, false], [true, false, false, true],
   [false, true, true, false], [false, true, false, true], [false, false, true, true]]

/-! ### Booking-engine lemmas -/

/-- The projection of a freshly inserted ticket. -/
def codeOut (c : String) : TicketOut := ⟨c, c, false⟩

/-- The database after the winning transaction on a single-booking,
single-tier database. -/
def dbAfterWin (b : Booking) (t : TicketTier) (ts : List Ticket) (ref : String)
    (phone : Option String) (codes : List String) : DB :=
  ⟨[paidBooking b ref phone],
   [{ t with quantitySold := t.quantitySold + (b.quantity : Int) }],
   ts ++ codes.map (newTicket b.id)⟩

theorem statusProcessable_ne_paid {s : BookingStatus} (h : statusProcessable s = true) :
    s ≠ .PAID := by
  cases s <;> simp_all [statusProcessable]

theorem completeTx_conflict (db : DB) (B ref : String) (phone : Option String)
    (tid : String) (q : Nat) (codes : List String)
    (hzero : (db.bookings.filter (fun bk => bk.id = B ∧ statusProcessable bk.status)).length = 0) :
    completeTx db B ref phone tid q codes = (db, .error conflictErr) := by
  unfold completeTx
  rw [if_pos hzero]

theorem completeTx_error_rollback (db : DB) (B ref : String) (phone : Option String)
    (tid : String) (q : Nat) (codes : List String) (e : AppError)
    (h : (completeTx db B ref phone tid q codes).2 = .error e) :
    (completeTx db B ref phone tid q codes).1 = db := by
  unfold completeTx at h ⊢
  split
  · rfl
  · next hc0 =>
    split
    · next hc1 =>
      rw [if_neg hc0, if_pos hc1] at h
      simp at h
    · rfl

theorem completeTx_success (b : Booking) (t : TicketTier) (ts : List Ticket)
    (ref : String) (phone : Option String) (codes : List String)
    (hstat : statusProcessable b.status = true)
    (hfresh : ∀ tk ∈ ts, tk.bookingId ≠ b.id) :
    completeTx ⟨[b], [t], ts⟩ b.id ref phone t.id b.quantity codes =
      (dbAfterWin b t ts ref phone codes, .ok (codes.map codeOut)) := by
  unfold completeTx
  have hfilter : (ts ++ codes.map (newTicket b.id)).filter
      (fun tk => tk.bookingId = b.id ∧ tk.uniqueCode ∈ codes) = codes.map (newTicket b.id) := by
    rw [List.filter_append]
    have h1 : ts.filter (fun tk => tk.bookingId = b.id ∧ tk.uniqueCode ∈ codes) = [] := by
      apply List.filter_eq_nil_iff.mpr
      intro tk htk
      simp [hfresh tk htk]
    have h2 : (codes.map (newTicket b.id)).filter
        (fun tk => tk.bookingId = b.id ∧ tk.uniqueCode ∈ codes) = codes.map (newTicket b.id) := by
      apply List.filter_eq_self.mpr
      intro tk htk
      obtain ⟨c, hc, rfl⟩ := List.mem_map.mp htk
      simp [newTicket, hc]
    rw [h1, h2, List.nil_append]
  rw [if_neg (by simp [hstat])]
  rw [if_pos (by simp)]
  simp only [hfilter]
  simp [dbAfterWin, hstat, newTicket, codeOut, toTicketOut, Function.comp]

theorem step1_ready (gen : Nat → String) (db : DB) (B : String) (b : Booking)
    (codes : List String) (ctr : Nat)
    (hfind : findBooking db B = some b)
    (hstat : statusProcessable b.status = true)
    (hgen : genCodes gen db 0 b.quantity = .ok (codes, ctr)) :
    completeStep1 gen db B = .inr (b.ticketTierId, b.quantity, codes) := by
  unfold completeStep1
  simp only [hfind]
  rw [if_neg (by simp [statusProcessable_ne_paid hstat])]
  rw [if_pos hstat]
  simp only [hgen]

theorem step1_idempotent (gen : Nat → String) (db : DB) (B : String) (b : Booking)
    (hfind : findBooking db B = some b)
    (hpaid : b.status = .PAID)
    (hticks : bookingTickets db B ≠ []) :
    completeStep1 gen db B = .inl (.ok ((bookingTickets db B).map toTicketOut)) := by
  unfold completeStep1
  simp only [hfind]
  rw [if_pos ⟨hpaid, List.length_pos.mpr hticks⟩]

/-! ### Claim C2 -/

/-- C2: on a booking whose status is `PAID` with at least one ticket,
`completeBooking` is a pure idempotent read for any payment reference and
phone: it returns the existing tickets and the database — booking row, tier
and ticket table — completely unchanged, with no error. -/
theorem C2_completeBooking_idempotent (gen : Nat → String) (db : DB) (B ref : String)
    (phone : Option String) (b : Booking)
    (hfind : findBooking db B = some b)
    (hpaid : b.status = .PAID)
    (hticks : bookingTickets db B ≠ []) :
    completeBooking gen db B ref phone = (db, .ok ((bookingTickets db B).map toTicketOut)) := by
  unfold completeBooking
  rw [step1_idempotent gen db B b hfind hpaid hticks]

theorem C2_completeBooking_idempotent_witness :
    completeBooking (fun _ => "X") ⟨[⟨"B1", "U1", "T1", 1, .PAID, some "r0", none⟩],
        [⟨"T1", "E1", 10, 1⟩], [⟨"tk1", "AAAA-1111", "B1", false⟩]⟩ "B1" "r1" (some "p") =
      (⟨[⟨"B1", "U1", "T1", 1, .PAID, some "r0", none⟩], [⟨"T1", "E1", 10, 1⟩],
        [⟨"tk1", "AAAA-1111", "B1", false⟩]⟩,
       .ok [⟨"tk1", "AAAA-1111", false⟩]) :=
  C2_completeBooking_idempotent (fun _ => "X") _ "B1" "r1" (some "p")
    ⟨"B1", "U1", "T1", 1, .PAID, some "r0", none⟩ rfl rfl (by simp [bookingTickets])

/-! ### Claim C4 -/

/-- C4: `cancelBooking` succeeds only on a `PAID` booking — a missing booking
yields 404 and any other status 400, both leaving the database unchanged; on
success one transaction performs the conditional update `PAID → CANCELLED`
(which matches exactly the one row; a zero-row match yields the 409 conflict
and, like every transaction error, rolls the database back) followed by the
tier decrement by `booking.quantity`, and the ticket table is untouched. -/
theorem C4_cancelBooking_spec (b : Booking) (t : TicketTier) (ts : List Ticket)
    (reason : Option String)
    (hpaid : b.status = .PAID) (htid : b.ticketTierId = t.id) :
    cancelBooking ⟨[b], [t], ts⟩ b.id reason =
      (⟨[{ b with status := .CANCELLED }],
        [{ t with quantitySold := t.quantitySold - (b.quantity : Int) }], ts⟩, .ok ())
    ∧ (DB.bookings ⟨[b], [t], ts⟩).filter (fun bk => bk.id = b.id ∧ bk.status = .PAID) = [b]
    ∧ (∀ (db2 : DB) (B tid : String) (q : Nat),
        (db2.bookings.filter (fun bk => bk.id = B ∧ bk.status = .PAID)).length = 0 →
        cancelTx db2 B tid q = (db2, .error cancelConflictErr))
    ∧ (∀ (db2 : DB) (B tid : String) (q : Nat) (e : AppError),
        (cancelTx db2 B tid q).2 = .error e → (cancelTx db2 B tid q).1 = db2)
    ∧ (∀ (db2 : DB) (B : String) (r : Option String), findBooking db2 B = none →
        cancelBooking db2 B r = (db2, .error ⟨"Booking not found", 404⟩))
    ∧ (∀ (db2 : DB) (B : String) (r : Option String) (b2 : Booking),
        findBooking db2 B = some b2 → b2.status ≠ .PAID →
        cancelBooking db2 B r =
          (db2, .error ⟨"Booking cannot be cancelled in its current state", 400⟩))
    ∧ (∀ (db2 db3 : DB) (B : String) (r : Option String),
        cancelBooking db2 B r = (db3, .ok ()) →
        ∃ b2, findBooking db2 B = some b2 ∧ b2.status = .PAID) := by
  refine ⟨?_, ?_, ?_, ?_, ?_, ?_, ?_⟩
  · unfold cancelBooking
    have hfind : findBooking ⟨[b], [t], ts⟩ b.id = some b := by simp [findBooking]
    simp only [hfind]
    rw [if_pos hpaid, htid]
    unfold cancelTx
    rw [if_neg (by simp [hpaid])]
    rw [if_pos (by simp)]
    simp [hpaid, htid]
  · simp [hpaid]
  · intro db2 B tid q hzero
    unfold cancelTx
    rw [if_pos hzero]
  · intro db2 B tid q e h
    unfold cancelTx at h ⊢
    split
    · rfl
    · next hc0 =>
      split
      · next hc1 =>
        rw [if_neg hc0, if_pos hc1] at h
        simp at h
      · rfl
  · intro db2 B r hnone
    unfold cancelBooking
    simp only [hnone]
  · intro db2 B r b2 hfind hne
    unfold cancelBooking
    simp only [hfind]
    rw [if_neg hne]
  · intro db2 db3 B r h
    unfold cancelBooking at h
    cases hfind : findBooking db2 B with
    | none =>
      simp only [hfind] at h
      simp at h
    | some b2 =>
      simp only [hfind] at h
      by_cases hp : b2.status = .PAID
      · exact ⟨b2, rfl, hp⟩
      · rw [if_neg hp] at h
        simp at h

theorem C4_cancelBooking_spec_witness :
    cancelBooking ⟨[⟨"B1", "U1", "T1", 4, .PAID, some "r0", none⟩], [⟨"T1", "E1", 10, 4⟩],
        [⟨"c1", "c1", "B1", false⟩]⟩ "B1" (some "refund") =
      (⟨[⟨"B1", "U1", "T1", 4, .CANCELLED, some "r0", none⟩], [⟨"T1", "E1", 10, 0⟩],
        [⟨"c1", "c1", "B1", false⟩]⟩, .ok ()) := by
  have h := (C4_cancelBooking_spec ⟨"B1", "U1", "T1", 4, .PAID, some "r0", none⟩
      ⟨"T1", "E1", 10, 4⟩ [⟨"c1", "c1", "B1", false⟩] (some "refund") rfl rfl).1
  simpa using h

/-! ### Lemmas for the concurrent claims -/

theorem genCodes_length (gen : Nat → String) (db : DB) :
    ∀ (n ctr : Nat) (codes : List String) (ctr2 : Nat),
      genCodes gen db ctr n = .ok (codes, ctr2) → codes.length = n := by
  intro n
  induction n with
  | zero =>
    intro ctr codes ctr2 h
    unfold genCodes at h
    injection h with h
    injection h with h1 _
    rw [← h1]
    rfl
  | succ n ih =>
    intro ctr codes ctr2 h
    unfold genCodes at h
    split at h
    · exact absurd h (by simp)
    · rename_i c ctr1 _
      split at h
      · exact absurd h (by simp)
      · rename_i cs ctr2x heq2
        injection h with h
        injection h with h1 _
        rw [← h1]
        simp only [List.length_cons]
        rw [ih ctr1 cs ctr2x heq2]

theorem dbAfterWin_bookingTickets (b : Booking) (t : TicketTier) (ts : List Ticket)
    (ref : String) (phone : Option String) (codes : List String)
    (hfresh : ∀ tk ∈ ts, tk.bookingId ≠ b.id) :
    bookingTickets (dbAfterWin b t ts ref phone codes) b.id = codes.map (newTicket b.id) := by
  unfold bookingTickets dbAfterWin
  rw [List.filter_append]
  have h1 : ts.filter (fun tk => tk.bookingId = b.id) = [] := by
    apply List.filter_eq_nil_iff.mpr
    intro tk htk
    simp [hfresh tk htk]
  have h2 : (codes.map (newTicket b.id)).filter (fun tk => tk.bookingId = b.id)
      = codes.map (newTicket b.id) := by
    apply List.filter_eq_self.mpr
    intro tk htk
    obtain ⟨c, _, rfl⟩ := List.mem_map.mp htk
    simp [newTicket]
  rw [h1, h2, List.nil_append]

/-- After the winning transaction, the loser's pre-transaction lookup takes
the idempotency shortcut: status is `PAID` and the tickets are exactly the
winner's, so the loser is handed the winner's ticket set. -/
theorem step1_after_win (gen : Nat → String) (b : Booking) (t : TicketTier) (ts : List Ticket)
    (ref : String) (phone : Option String) (codes : List String)
    (hfresh : ∀ tk ∈ ts, tk.bookingId ≠ b.id) (hcodes : codes ≠ []) :
    completeStep1 gen (dbAfterWin b t ts ref phone codes) b.id
      = .inl (.ok (codes.map codeOut)) := by
  have hfind : findBooking (dbAfterWin b t ts ref phone codes) b.id
      = some (paidBooking b ref phone) := by
    simp [findBooking, dbAfterWin, paidBooking]
  have hbt := dbAfterWin_bookingTickets b t ts ref phone codes hfresh
  rw [step1_idempotent gen _ b.id (paidBooking b ref phone) hfind rfl
    (by rw [hbt]; simp [hcodes])]
  rw [hbt]
  simp [newTicket, codeOut, toTicketOut, Function.comp]

/-- After the winning transaction the loser's conditional update matches zero
rows (the only row is `PAID`): the transaction aborts with the 409 conflict
and changes nothing. -/
theorem completeTx_after_win (b : Booking) (t : TicketTier) (ts : List Ticket)
    (ref : String) (phone : Option String) (codes : List String)
    (r2 : String) (p2 : Option String) (tid2 : String) (q2 : Nat) (cs2 : List String) :
    completeTx (dbAfterWin b t ts ref phone codes) b.id r2 p2 tid2 q2 cs2
      = (dbAfterWin b t ts ref phone codes, .error conflictErr) := by
  apply completeTx_conflict
  simp [dbAfterWin, paidBooking, statusProcessable]

/-! ### Claim C1 -/

/-- C1 (amended): on a booking in `PENDING` or `AWAITING_PAYMENT`, all
state-changing work of `completeBooking` happens inside the one transaction
(`completeTx`; the pre-transaction part only reads): the conditional update
matches exactly the rows with status in `{PENDING, AWAITING_PAYMENT}` — here
exactly one — and sets `PAID`, the payment reference, and the payment phone
when one is given (and non-empty, per JavaScript truthiness); the winner
increments the tier's `quantitySold` by `booking.quantity` and inserts the
pre-generated tickets; a zero-row conditional update aborts the transaction
with the 409 `AlreadyProcessed` conflict, and any transaction abort leaves
booking, tier and ticket table unchanged.  (The abort is *not* caught and
satisfied by a repeated lookup — it propagates to the caller; see the
counterexample.) -/
theorem C1_completeBooking_transactional (gen : Nat → String) (b : Booking) (t : TicketTier)
    (ts : List Ticket) (ref : String) (phone : Option String) (codes : List String) (ctr : Nat)
    (hstat : statusProcessable b.status = true)
    (hfresh : ∀ tk ∈ ts, tk.bookingId ≠ b.id)
    (htid : b.ticketTierId = t.id)
    (hgen : genCodes gen ⟨[b], [t], ts⟩ 0 b.quantity = .ok (codes, ctr)) :
    completeBooking gen ⟨[b], [t], ts⟩ b.id ref phone
      = (dbAfterWin b t ts ref phone codes, .ok (codes.map codeOut))
    ∧ (DB.bookings ⟨[b], [t], ts⟩).filter
        (fun bk => bk.id = b.id ∧ statusProcessable bk.status) = [b]
    ∧ (∀ (db2 : DB) (B r : String) (p : Option String) (tid : String) (q : Nat)
          (cs : List String),
        (db2.bookings.filter (fun bk => bk.id = B ∧ statusProcessable bk.status)).length = 0 →
        completeTx db2 B r p tid q cs = (db2, .error conflictErr))
    ∧ (∀ (db2 : DB) (B r : String) (p : Option String) (tid : String) (q : Nat)
          (cs : List String) (e : AppError),
        (completeTx db2 B r p tid q cs).2 = .error e →
        (completeTx db2 B r p tid q cs).1 = db2) := by
  refine ⟨?_, ?_, ?_, ?_⟩
  · have h1 := step1_ready gen ⟨[b], [t], ts⟩ b.id b codes ctr
      (by simp [findBooking]) hstat hgen
    unfold completeBooking
    simp only [h1]
    rw [htid]
    exact completeTx_success b t ts ref phone codes hstat hfresh
  · simp [hstat]
  · intro db2 B r p tid q cs hzero
    exact completeTx_conflict db2 B r p tid q cs hzero
  · intro db2 B r p tid q cs e h
    exact completeTx_error_rollback db2 B r p tid q cs e h

/-- Concrete racing scenario: one `AWAITING_PAYMENT` booking of quantity 1,
one tier, two invocations with references `refA`/`refB`. -/
def cxDb : DB := ⟨[⟨"B1", "U1", "T1", 1, .AWAITING_PAYMENT, none, none⟩],
  [⟨"T1", "E1", 10, 0⟩], []⟩

def cxGenA : Nat → String := fun _ => "AAAA-1111"

def cxGenB : Nat → String := fun _ => "BBBB-2222"

def cxInvA : CBInv := ⟨"B1", "refA", none, cxGenA, .notStarted⟩

def cxInvB : CBInv := ⟨"B1", "refB", none, cxGenB, .notStarted⟩

/-- C1 counterexample: in the interleaving where both invocations pass the
pre-transaction lookup before either transaction runs, the loser's zero-row
conditional update makes its invocation *end in* the 409 `AlreadyProcessed`
error — it is not caught and satisfied by repeating the idempotency lookup.
And a caller-supplied empty payment phone is not stored (JavaScript
truthiness), against the claim's "paymentPhoneNumber when given". -/
theorem C1_counterexample :
    (runRace [true, false, true, false] (cxDb, cxInvA, cxInvB)).2.2.phase
      = .finished (.error conflictErr)
    ∧ conflictErr.statusCode = 409
    ∧ (completeBooking cxGenA cxDb "B1" "refA" (some "")).1.bookings
        = [⟨"B1", "U1", "T1", 1, .PAID, some "refA", none⟩] :=
  ⟨by rfl, by rfl, by rfl⟩

theorem C1_completeBooking_transactional_witness :
    completeBooking cxGenA cxDb "B1" "refA" (some "254712345678")
      = (⟨[⟨"B1", "U1", "T1", 1, .PAID, some "refA", some "254712345678"⟩],
          [⟨"T1", "E1", 10, 1⟩], [⟨"AAAA-1111", "AAAA-1111", "B1", false⟩]⟩,
         .ok [⟨"AAAA-1111", "AAAA-1111", false⟩]) := by
  have h := (C1_completeBooking_transactional cxGenA
      ⟨"B1", "U1", "T1", 1, .AWAITING_PAYMENT, none, none⟩ ⟨"T1", "E1", 10, 0⟩ []
      "refA" (some "254712345678") ["AAAA-1111"] 1 rfl (by simp) rfl (by rfl)).1
  simpa [cxDb, cxGenA, dbAfterWin, paidBooking, newTicket, codeOut, optTruthy] using h

/-! ### Claim C3 -/

/-- C3 (amended): for a processable booking raced by two `completeBooking`
invocations, in every interleaving exactly one invocation commits: the final
database has the tier's `quantitySold` incremented once by
`booking.quantity`, exactly the winner's `booking.quantity` tickets inserted,
and `paymentReference` equal to the winner's reference; the winner returns
its inserted tickets, and the loser either returns the same ticket set (when
its lookup runs after the winner's commit) or fails with the 409
`AlreadyProcessed` conflict (when both lookups precede both transactions) —
the original "both return the same ticket set" does not hold in the latter
interleavings.  This is independent of the lock registry, which the service
does not consult. -/
theorem C3_first_webhook_wins (b : Booking) (t : TicketTier) (ts : List Ticket)
    (refA refB : String) (phoneA phoneB : Option String) (genA genB : Nat → String)
    (codesA codesB : List String) (ctrA ctrB : Nat)
    (hstat : statusProcessable b.status = true)
    (hfresh : ∀ tk ∈ ts, tk.bookingId ≠ b.id)
    (hq : 0 < b.quantity)
    (htid : b.ticketTierId = t.id)
    (hgenA : genCodes genA ⟨[b], [t], ts⟩ 0 b.quantity = .ok (codesA, ctrA))
    (hgenB : genCodes genB ⟨[b], [t], ts⟩ 0 b.quantity = .ok (codesB, ctrB)) :
    ∀ s ∈ interleavings2, ∀ (dbf : DB) (aInv bInv : CBInv),
      runRace s (⟨[b], [t], ts⟩, ⟨b.id, refA, phoneA, genA, .notStarted⟩,
          ⟨b.id, refB, phoneB, genB, .notStarted⟩) = (dbf, aInv, bInv) →
      (dbf = dbAfterWin b t ts refA phoneA codesA
        ∧ aInv.phase = .finished (.ok (codesA.map codeOut))
        ∧ (bInv.phase = .finished (.ok (codesA.map codeOut))
           ∨ bInv.phase = .finished (.error conflictErr)))
      ∨ (dbf = dbAfterWin b t ts refB phoneB codesB
        ∧ bInv.phase = .finished (.ok (codesB.map codeOut))
        ∧ (aInv.phase = .finished (.ok (codesB.map codeOut))
           ∨ aInv.phase = .finished (.error conflictErr))) := by
  have hfind : findBooking ⟨[b], [t], ts⟩ b.id = some b := by simp [findBooking]
  have hcodesA : codesA ≠ [] := by
    intro hnil
    have := genCodes_length genA ⟨[b], [t], ts⟩ b.quantity 0 codesA ctrA hgenA
    rw [hnil] at this
    simp at this
    omega
  have hcodesB : codesB ≠ [] := by
    intro hnil
    have := genCodes_length genB ⟨[b], [t], ts⟩ b.quantity 0 codesB ctrB hgenB
    rw [hnil] at this
    simp at this
    omega
  have hs1A : completeStep1 genA ⟨[b], [t], ts⟩ b.id
      = .inr (b.ticketTierId, b.quantity, codesA) :=
    step1_ready genA ⟨[b], [t], ts⟩ b.id b codesA ctrA hfind hstat hgenA
  have hs1B : completeStep1 genB ⟨[b], [t], ts⟩ b.id
      = .inr (b.ticketTierId, b.quantity, codesB) :=
    step1_ready genB ⟨[b], [t], ts⟩ b.id b codesB ctrB hfind hstat hgenB
  have htxA : completeTx ⟨[b], [t], ts⟩ b.id refA phoneA t.id b.quantity codesA
      = (dbAfterWin b t ts refA phoneA codesA, .ok (codesA.map codeOut)) :=
    completeTx_success b t ts refA phoneA codesA hstat hfresh
  have htxB : completeTx ⟨[b], [t], ts⟩ b.id refB phoneB t.id b.quantity codesB
      = (dbAfterWin b t ts refB phoneB codesB, .ok (codesB.map codeOut)) :=
    completeTx_success b t ts refB phoneB codesB hstat hfresh
  have hafterAB : completeStep1 genB (dbAfterWin b t ts refA phoneA codesA) b.id
      = .inl (.ok (codesA.map codeOut)) :=
    step1_after_win genB b t ts refA phoneA codesA hfresh hcodesA
  have hafterBA : completeStep1 genA (dbAfterWin b t ts refB phoneB codesB) b.id
      = .inl (.ok (codesB.map codeOut)) :=
    step1_after_win genA b t ts refB phoneB codesB hfresh hcodesB
  intro s hs dbf aInv bInv hrun
  fin_cases hs <;>
    simp only [runRace, stepInv, hs1A, hs1B, htid, htxA, htxB, hafterAB, hafterBA,
      completeTx_after_win] at hrun <;>
    simp only [Prod.mk.injEq] at hrun <;>
    obtain ⟨rfl, rfl, rfl⟩ := hrun <;>
    first
      | exact Or.inl ⟨rfl, rfl, Or.inl rfl⟩
      | exact Or.inl ⟨rfl, rfl, Or.inr rfl⟩
      | exact Or.inr ⟨rfl, rfl, Or.inl rfl⟩
      | exact Or.inr ⟨rfl, rfl, Or.inr rfl⟩

/-- C3 counterexample: in the interleaving lookup-A, lookup-B, commit-A,
commit-B, invocation A returns the inserted ticket while invocation B ends in
the 409 conflict — B does not return the same (or any) ticket set. -/
theorem C3_counterexample :
    (runRace [true, false, true, false] (cxDb, cxInvA, cxInvB)).2.1.phase
      = .finished (.ok [⟨"AAAA-1111", "AAAA-1111", false⟩])
    ∧ ∀ out, (runRace [true, false, true, false] (cxDb, cxInvA, cxInvB)).2.2.phase
        ≠ .finished (.ok out) := by
  constructor
  · rfl
  · intro out h
    have he : (runRace [true, false, true, false] (cxDb, cxInvA, cxInvB)).2.2.phase
        = .finished (.error conflictErr) := by rfl
    rw [he] at h
    simp at h

theorem C3_first_webhook_wins_witness :
    (runRace [true, true, false, false] (cxDb, cxInvA, cxInvB)).1.tiers
      = [⟨"T1", "E1", 10, 1⟩] := by
  have h := C3_first_webhook_wins ⟨"B1", "U1", "T1", 1, .AWAITING_PAYMENT, none, none⟩
    ⟨"T1", "E1", 10, 0⟩ [] "refA" "refB" none none cxGenA cxGenB
    ["AAAA-1111"] ["BBBB-2222"] 1 1 rfl (by simp) (by decide) rfl (by rfl) (by rfl)
    [true, true, false, false] (by decide)
    (runRace [true, true, false, false] (cxDb, cxInvA, cxInvB)).1
    (runRace [true, true, false, false] (cxDb, cxInvA, cxInvB)).2.1
    (runRace [true, true, false, false] (cxDb, cxInvA, cxInvB)).2.2
    (by rfl)
  rcases h with ⟨hdb, _, _⟩ | ⟨hdb, _, _⟩ <;>
    rw [hdb] <;> rfl

/-! ## IntaSend webhook handler (`src/controllers/webhook.controller.ts`)

`handleIntaSend` modelled as a function of the request body fields to the
HTTP response.  `res.send('OK')` is status 200; the confirmation-message
fan-out is fire-and-forget and changes no database state, so it is omitted. -/

structure HttpResponse where
  status : Nat
  body : String
deriving DecidableEq, Repr

/-- The body fields `handleIntaSend` destructures; absent fields are `none`. -/
structure IntaSendPayload where
  challenge : Option String
  state : Option String
  api_ref : Option String
  invoice_id : Option String
  account : Option String

/-- `WebhookController.handleIntaSend`: challenge check (400), non-COMPLETE
states acknowledged with 200 `OK`, missing `api_ref`/`invoice_id` (JavaScript
falsiness: absent or empty) rejected with 400, then `completeBooking`; an
`AppError` becomes `res.status(error.statusCode).send(error.message)` and an
unknown error 500 (despite the adjacent comment about returning OK). -/
def handleIntaSend (gen : Nat → String) (db : DB) (p : IntaSendPayload) :
    DB × HttpResponse :=
  if p.challenge ≠ some "complete" then (db, ⟨400, "Invalid challenge"⟩)
  else if p.state ≠ some "COMPLETE" then (db, ⟨200, "OK"⟩)
  else
    match p.api_ref, p.invoice_id with
    | some bid, some ref =>
      if bid = "" ∨ ref = "" then (db, ⟨400, "Missing required fields"⟩)
      else
        match completeBooking gen db bid ref p.account with
        | (db2, .ok _) => (db2, ⟨200, "OK"⟩)
        | (db2, .error e) => (db2, ⟨e.statusCode, e.message⟩)
    | _, _ => (db, ⟨400, "Missing required fields"⟩)

/-! ### Claim C5 -/

/-- C5 (amended): the IntaSend webhook handler responds 200 `OK` only on the
happy paths — a non-COMPLETE payment state, or a successful
`completeBooking`.  A challenge mismatch and missing/empty `api_ref` or
`invoice_id` yield 400; a `completeBooking` `AppError` is propagated as the
error's own status code and message (404/400/409/500), contrary to
"always 200 OK, internal failures logged only". -/
theorem C5_intasend_response (gen : Nat → String) (db : DB) (p : IntaSendPayload) :
    (p.challenge ≠ some "complete" →
      handleIntaSend gen db p = (db, ⟨400, "Invalid challenge"⟩))
    ∧ (p.challenge = some "complete" → p.state ≠ some "COMPLETE" →
      handleIntaSend gen db p = (db, ⟨200, "OK"⟩))
    ∧ (p.challenge = some "complete" → p.state = some "COMPLETE" →
      (p.api_ref = none ∨ p.api_ref = some "" ∨ p.invoice_id = none ∨ p.invoice_id = some "") →
      handleIntaSend gen db p = (db, ⟨400, "Missing required fields"⟩))
    ∧ (∀ (bid ref : String) (db2 : DB) (outs : List TicketOut),
        p.challenge = some "complete" → p.state = some "COMPLETE" →
        p.api_ref = some bid → bid ≠ "" → p.invoice_id = some ref → ref ≠ "" →
        completeBooking gen db bid ref p.account = (db2, .ok outs) →
        handleIntaSend gen db p = (db2, ⟨200, "OK"⟩))
    ∧ (∀ (bid ref : String) (db2 : DB) (e : AppError),
        p.challenge = some "complete" → p.state = some "COMPLETE" →
        p.api_ref = some bid → bid ≠ "" → p.invoice_id = some ref → ref ≠ "" →
        completeBooking gen db bid ref p.account = (db2, .error e) →
        handleIntaSend gen db p = (db2, ⟨e.statusCode, e.message⟩)) := by
  refine ⟨?_, ?_, ?_, ?_, ?_⟩
  · intro h
    unfold handleIntaSend
    rw [if_pos h]
  · intro h1 h2
    unfold handleIntaSend
    rw [if_neg (by simp [h1]), if_pos h2]
  · intro h1 h2 h3
    unfold handleIntaSend
    rw [if_neg (by simp [h1]), if_neg (by simp [h2])]
    rcases h3 with h | h | h | h <;> rw [h] <;>
      first
        | (cases p.invoice_id <;> simp)
        | (cases p.api_ref <;> simp)
  · intro bid ref db2 outs h1 h2 h3 h4 h5 h6 h7
    unfold handleIntaSend
    rw [if_neg (by simp [h1]), if_neg (by simp [h2])]
    simp only [h3, h5]
    rw [if_neg (by simp [h4, h6])]
    simp only [h7]
  · intro bid ref db2 e h1 h2 h3 h4 h5 h6 h7
    unfold handleIntaSend
    rw [if_neg (by simp [h1]), if_neg (by simp [h2])]
    simp only [h3, h5]
    rw [if_neg (by simp [h4, h6])]
    simp only [h7]

/-- C5 counterexample: a challenge mismatch is answered with status 400, and
a COMPLETE payment for an unknown booking is answered with the 404 error —
the handler does not always respond 200 OK. -/
theorem C5_counterexample :
    handleIntaSend (fun _ => "") ⟨[], [], []⟩
        ⟨some "bogus", some "COMPLETE", some "B1", some "I1", none⟩
      = (⟨[], [], []⟩, ⟨400, "Invalid challenge"⟩)
    ∧ handleIntaSend (fun _ => "") ⟨[], [], []⟩
        ⟨some "complete", some "COMPLETE", some "B1", some "I1", none⟩
      = (⟨[], [], []⟩, ⟨404, "Booking not found"⟩) :=
  ⟨by rfl, by rfl⟩

/-! ## Conversation routing (`src/handlers/conversation.handler.ts`)

The world is the session store, the per-phone menu-cooldown map and clock,
the user and event tables, the booking database and an outbound-message log.
The state-specific sub-handlers the switch delegates to are opaque
parameters: the claims below only concern the routing itself.  Message
construction details (menu row titles, truncation) are abstracted into the
outbound event; database connectivity retries are not modelled (the database
is reachable). -/

structure ChatUser where
  id : String
  phoneNumber : String
  name : Option String
deriving DecidableEq, Repr

structure Event where
  id : String
  title : String
  venue : String
  isActive : Bool
  startTime : Nat
deriving DecidableEq, Repr

inductive OutMsg
  | text (phone body : String)
  | eventList (phone : String) (eventIds : List String)
  | categoryList (phone : String)
deriving DecidableEq, Repr

structure ChatWorld where
  sessions : SessionStore
  lastWelcomeMenuSent : List (String × Nat)
  now : Nat
  users : List ChatUser
  events : List Event
  db : DB
  outbox : List OutMsg

def WELCOME_MENU_COOLDOWN_MS : Nat := 5000

def GLOBAL_COMMANDS : List String := ["hi", "menu", "start", "restart", "reset", "cancel"]

/-- ASCII lower-casing (`toLowerCase()`; the commands are ASCII). -/
def lowerChar (c : Char) : Char :=
  if 'A' ≤ c ∧ c ≤ 'Z' then Char.ofNat (c.toNat + 32) else c

/-- JavaScript whitespace for `trim()`. -/
def isWsChar (c : Char) : Bool :=
  c = ' ' || c = '\t' || c = '\n' || c = '\r' || c = '\x0b' || c = '\x0c'

/-- `body.toLowerCase().trim()`. -/
def normalizeCommand (body : String) : String :=
  String.mk ((((body.toList.map lowerChar).dropWhile isWsChar).reverse.dropWhile
    isWsChar).reverse)

/-- `message.id || message.body` — the routing key of an inbound message. -/
structure InboundMsg where
  body : String
  id : Option String

def msgKey (msg : InboundMsg) : String :=
  match msg.id with
  | some i => if i = "" then msg.body else i
  | none => msg.body

def lookupLastSent (m : List (String × Nat)) (k : String) : Option Nat :=
  (List.find? (fun e => e.1 = k) m).map (fun e => e.2)

def setLastSent (m : List (String × Nat)) (k : String) (v : Nat) : List (String × Nat) :=
  (k, v) :: List.filter (fun e => !(e.1 = k : Bool)) m

/-- The anti-loop guard: another menu was sent to this phone within 5 s
(timestamps are `Date.now()` values, hence positive). -/
def welcomeCooldownActive (m : List (String × Nat)) (now : Nat) (np : String) : Bool :=
  match lookupLastSent m np with
  | some t => decide (now - t < WELCOME_MENU_COOLDOWN_MS)
  | none => false

def insertEvent (e : Event) : List Event → List Event
  | [] => [e]
  | x :: xs => if e.startTime ≤ x.startTime then e :: x :: xs else x :: insertEvent e xs

/-- `orderBy: { startTime: 'asc' }`. -/
def sortByStart : List Event → List Event
  | [] => []
  | x :: xs => insertEvent x (sortByStart xs)

/-- `prisma.event.findMany({ where: { isActive, startTime > now },
orderBy startTime asc, take: 10 })`. -/
def upcomingEvents (events : List Event) (now : Nat) : List Event :=
  (sortByStart (events.filter (fun e => e.isActive && decide (now < e.startTime)))).take 10

/-- `sendWelcomeMenu` — the legacy event-list menu: skipped under the 5 s
cooldown; with no active upcoming events a plain text is sent instead; the
event list send records the cooldown timestamp. -/
def sendWelcomeMenu (w : ChatWorld) (phone : String) : ChatWorld :=
  match normalizePhoneNumber phone with
  | .error _ => w
  | .ok np =>
    if welcomeCooldownActive w.lastWelcomeMenuSent w.now np then w
    else if upcomingEvents w.events w.now = [] then
      { w with outbox := w.outbox ++
          [.text phone "Sorry, there are no upcoming events at the moment. Check back later!"] }
    else
      { w with
        outbox := w.outbox ++
          [.eventList phone ((upcomingEvents w.events w.now).map (fun e => e.id))],
        lastWelcomeMenuSent := setLastSent w.lastWelcomeMenuSent np w.now }

/-- `sendCategoryMenu` — the category list (categories are the closed enum);
same cooldown map and timestamp recording. -/
def sendCategoryMenu (w : ChatWorld) (phone : String) : ChatWorld :=
  match normalizePhoneNumber phone with
  | .error _ => w
  | .ok np =>
    if welcomeCooldownActive w.lastWelcomeMenuSent w.now np then w
    else
      { w with
        outbox := w.outbox ++ [.categoryList phone],
        lastWelcomeMenuSent := setLastSent w.lastWelcomeMenuSent np w.now }

/-- `ensureUser` — upsert by normalized phone; the name is updated when a
truthy name differs from the stored one.  User row ids are
database-generated; the model uses the (unique) normalized phone. -/
def ensureUser (w : ChatWorld) (phone : String) (name : Option String) :
    ChatWorld × String :=
  match normalizePhoneNumber phone with
  | .error _ => (w, "")
  | .ok np =>
    match List.find? (fun u => u.phoneNumber = np) w.users with
    | none => ({ w with users := w.users ++ [⟨np, np, name⟩] }, np)
    | some u =>
      match name with
      | some n =>
        if n ≠ "" ∧ u.name ≠ some n then
          ({ w with users := w.users.map (fun v =>
              if v.id = u.id then { v with name := some n } else v) }, u.id)
        else (w, u.id)
      | none => (w, u.id)

/-- The state-specific handlers the switch delegates to, as opaque world
transformers (their own behavior is outside the routing claims). -/
structure SubHandlers where
  selectingCategory : ChatWorld → ChatWorld
  browsingEvents : ChatWorld → ChatWorld
  selectingTier : ChatWorld → ChatWorld
  selectingQuantity : ChatWorld → ChatWorld
  awaitingPaymentMethod : ChatWorld → ChatWorld
  awaitingPaymentPhone : ChatWorld → ChatWorld

def wClearSession (ttl : Nat) (w : ChatWorld) (phone : String) : ChatWorld :=
  { w with sessions := clearSession ttl w.sessions phone }

def wUpdateSession (ttl : Nat) (w : ChatWorld) (phone : String) (st : BotState)
    (d : SessionData) : ChatWorld :=
  { w with sessions := updateSession ttl w.sessions phone st d }

/-- The body of `handleMessage` after phone normalization and `ensureUser`:
the global-command guard, then the state switch; `CONFIRMING_ORDER` and
`AWAITING_STK_PUSH` have no case and fall to the default branch
(clear session, send the legacy welcome menu, set `BROWSING_EVENTS`). -/
def handleRouted (ttl : Nat) (subs : SubHandlers) (w1 : ChatWorld) (np : String)
    (msg : InboundMsg) : ChatWorld :=
  if GLOBAL_COMMANDS.contains (normalizeCommand msg.body) then
    wUpdateSession ttl (sendCategoryMenu (wClearSession ttl w1 np) np) np .SELECTING_CATEGORY {}
  else
    match (getSession w1.sessions np).state with
    | .IDLE => wUpdateSession ttl (sendCategoryMenu w1 np) np .SELECTING_CATEGORY {}
    | .SELECTING_CATEGORY => subs.selectingCategory w1
    | .BROWSING_EVENTS => subs.browsingEvents w1
    | .SELECTING_TIER =>
      if msgKey msg = "BACK_TO_CATEGORIES" then
        wUpdateSession ttl (sendCategoryMenu w1 np) np .SELECTING_CATEGORY {}
      else subs.selectingTier w1
    | .SELECTING_QUANTITY => subs.selectingQuantity w1
    | .AWAITING_PAYMENT_METHOD => subs.awaitingPaymentMethod w1
    | .AWAITING_PAYMENT_PHONE => subs.awaitingPaymentPhone w1
    | .CONFIRMING_ORDER =>
      wUpdateSession ttl (sendWelcomeMenu (wClearSession ttl w1 np) np) np .BROWSING_EVENTS {}
    | .AWAITING_STK_PUSH =>
      wUpdateSession ttl (sendWelcomeMenu (wClearSession ttl w1 np) np) np .BROWSING_EVENTS {}

/-- `ConversationHandler.handleMessage` — a phone that fails normalization
takes the outer catch (generic error text). -/
def handleMessage (ttl : Nat) (subs : SubHandlers) (w : ChatWorld) (phone : String)
    (name : Option String) (msg : InboundMsg) : ChatWorld :=
  match normalizePhoneNumber phone with
  | .error _ =>
    { w with outbox := w.outbox ++
        [.text phone "Sorry, something went wrong. Please try again or type menu to start over."] }
  | .ok np => handleRouted ttl subs (ensureUser w phone name).1 np msg

theorem C5_intasend_response_witness :
    handleIntaSend (fun _ => "") ⟨[], [], []⟩
        ⟨some "complete", some "PENDING", some "B1", some "I1", none⟩
      = (⟨[], [], []⟩, ⟨200, "OK"⟩)
    ∧ handleIntaSend (fun _ => "") ⟨[], [], []⟩
        ⟨some "complete", some "COMPLETE", none, some "I1", none⟩
      = (⟨[], [], []⟩, ⟨400, "Missing required fields"⟩) :=
  ⟨(C5_intasend_response (fun _ => "") ⟨[], [], []⟩
      ⟨some "complete", some "PENDING", some "B1", some "I1", none⟩).2.1 rfl (by simp),
   (C5_intasend_response (fun _ => "") ⟨[], [], []⟩
      ⟨some "complete", some "COMPLETE", none, some "I1", none⟩).2.2.1 rfl rfl
      (Or.inl rfl)⟩

/-! ### Lemmas for the routing claim -/

/-- Normalization output normalizes to itself. -/
theorem normalize_ok_self {x y : String} (h : normalizePhoneNumber x = .ok y) :
    normalizePhoneNumber y = .ok y := by
  unfold normalizePhoneNumber at h ⊢
  cases hn : normChars x.toList with
  | none => rw [hn] at h; exact absurd h (by simp)
  | some l =>
    rw [hn] at h
    injection h with h
    subst h
    have hl : (String.mk l).toList = l := rfl
    rw [hl, normChars_idem hn]

theorem clearSession_ok {p np : String} (ttl : Nat) (store : SessionStore)
    (h : normalizePhoneNumber p = .ok np) :
    clearSession ttl store p = storeSetex store (sessionKey np) ttl ⟨.IDLE, {}⟩ := by
  unfold clearSession
  simp only [h]

theorem updateSession_ok {p np : String} (ttl : Nat) (store : SessionStore)
    (st : BotState) (d : SessionData) (h : normalizePhoneNumber p = .ok np) :
    updateSession ttl store p st d
      = storeSetex store (sessionKey np) ttl ⟨st, mergeData (getSession store p).data d⟩ := by
  unfold updateSession
  simp only [h]

theorem sendWelcomeMenu_preserves (w : ChatWorld) (p : String) :
    (sendWelcomeMenu w p).sessions = w.sessions ∧ (sendWelcomeMenu w p).db = w.db := by
  unfold sendWelcomeMenu
  split
  · exact ⟨rfl, rfl⟩
  · split
    · exact ⟨rfl, rfl⟩
    · split
      · exact ⟨rfl, rfl⟩
      · exact ⟨rfl, rfl⟩

theorem ensureUser_preserves (w : ChatWorld) (phone : String) (name : Option String) :
    (ensureUser w phone name).1.sessions = w.sessions
    ∧ (ensureUser w phone name).1.db = w.db
    ∧ (ensureUser w phone name).1.outbox = w.outbox
    ∧ (ensureUser w phone name).1.lastWelcomeMenuSent = w.lastWelcomeMenuSent
    ∧ (ensureUser w phone name).1.now = w.now
    ∧ (ensureUser w phone name).1.events = w.events := by
  unfold ensureUser
  split
  · exact ⟨rfl, rfl, rfl, rfl, rfl, rfl⟩
  · split
    · exact ⟨rfl, rfl, rfl, rfl, rfl, rfl⟩
    · split
      · split
        · exact ⟨rfl, rfl, rfl, rfl, rfl, rfl⟩
        · exact ⟨rfl, rfl, rfl, rfl, rfl, rfl⟩
      · exact ⟨rfl, rfl, rfl, rfl, rfl, rfl⟩

/-- Routing fact: a non-global message in state `AWAITING_STK_PUSH` takes the
default branch of the switch. -/
theorem handleMessage_stk (ttl : Nat) (subs : SubHandlers) (w : ChatWorld)
    (phone np : String) (name : Option String) (msg : InboundMsg)
    (d : SessionData) (ttl0 : Nat)
    (hnorm : normalizePhoneNumber phone = .ok np)
    (hsession : storeGet w.sessions (sessionKey np) = some (⟨.AWAITING_STK_PUSH, d⟩, ttl0))
    (hglobal : GLOBAL_COMMANDS.contains (normalizeCommand msg.body) = false) :
    handleMessage ttl subs w phone name msg
      = wUpdateSession ttl
          (sendWelcomeMenu (wClearSession ttl (ensureUser w phone name).1 np) np) np
          .BROWSING_EVENTS {} := by
  unfold handleMessage
  simp only [hnorm]
  unfold handleRouted
  rw [if_neg (by simp only [hglobal]; simp)]
  have hnp := normalize_ok_self hnorm
  have hs := (ensureUser_preserves w phone name).1
  have hget : getSession (ensureUser w phone name).1.sessions np = ⟨.AWAITING_STK_PUSH, d⟩ := by
    unfold getSession
    rw [hnp, hs]
    simp only [hsession]
  simp only [hget]

/-! ### Claim C10 -/

/-- C10 (amended): a non-global inbound message in session state
`AWAITING_STK_PUSH` falls to the default branch of the state switch: the
session is cleared and then set to `BROWSING_EVENTS` with empty data (TTL
reset), and the booking database — including the pending booking row — is
untouched; the legacy event-list welcome menu is sent provided the 5-second
menu cooldown for this phone is inactive and at least one active upcoming
event exists; with no upcoming events a no-events text is sent instead, and
under an active cooldown nothing is sent at all (against the claim's
unconditional "sends the legacy event-list welcome menu"). -/
theorem C10_awaiting_stk_default (ttl : Nat) (subs : SubHandlers) (w : ChatWorld)
    (phone np : String) (name : Option String) (msg : InboundMsg)
    (d : SessionData) (ttl0 : Nat)
    (hnorm : normalizePhoneNumber phone = .ok np)
    (hsession : storeGet w.sessions (sessionKey np) = some (⟨.AWAITING_STK_PUSH, d⟩, ttl0))
    (hglobal : GLOBAL_COMMANDS.contains (normalizeCommand msg.body) = false) :
    ∀ w2, handleMessage ttl subs w phone name msg = w2 →
      w2.db = w.db
      ∧ storeGet w2.sessions (sessionKey np) = some (⟨.BROWSING_EVENTS, {}⟩, ttl)
      ∧ (welcomeCooldownActive w.lastWelcomeMenuSent w.now np = false →
          upcomingEvents w.events w.now ≠ [] →
          w2.outbox = w.outbox ++
            [.eventList np ((upcomingEvents w.events w.now).map (fun e => e.id))])
      ∧ (welcomeCooldownActive w.lastWelcomeMenuSent w.now np = false →
          upcomingEvents w.events w.now = [] →
          w2.outbox = w.outbox ++
            [.text np "Sorry, there are no upcoming events at the moment. Check back later!"])
      ∧ (welcomeCooldownActive w.lastWelcomeMenuSent w.now np = true →
          w2.outbox = w.outbox) := by
  intro w2 hw2
  subst hw2
  rw [handleMessage_stk ttl subs w phone np name msg d ttl0 hnorm hsession hglobal]
  obtain ⟨hs, hdb, hob, hlast, hnow, hev⟩ := ensureUser_preserves w phone name
  have hnp := normalize_ok_self hnorm
  have hcw_sess : (wClearSession ttl (ensureUser w phone name).1 np).sessions
      = storeSetex w.sessions (sessionKey np) ttl ⟨.IDLE, {}⟩ := by
    show clearSession ttl (ensureUser w phone name).1.sessions np = _
    rw [hs, clearSession_ok ttl w.sessions hnp]
  have hcw_last : (wClearSession ttl (ensureUser w phone name).1 np).lastWelcomeMenuSent
      = w.lastWelcomeMenuSent := hlast
  have hcw_now : (wClearSession ttl (ensureUser w phone name).1 np).now = w.now := hnow
  have hcw_ev : (wClearSession ttl (ensureUser w phone name).1 np).events = w.events := hev
  have hcw_ob : (wClearSession ttl (ensureUser w phone name).1 np).outbox = w.outbox := hob
  have hcw_db : (wClearSession ttl (ensureUser w phone name).1 np).db = w.db := hdb
  refine ⟨?_, ?_, ?_, ?_, ?_⟩
  · show (sendWelcomeMenu (wClearSession ttl (ensureUser w phone name).1 np) np).db = w.db
    rw [(sendWelcomeMenu_preserves _ _).2, hcw_db]
  · show storeGet (updateSession ttl
        (sendWelcomeMenu (wClearSession ttl (ensureUser w phone name).1 np) np).sessions
        np .BROWSING_EVENTS {}) (sessionKey np) = _
    rw [(sendWelcomeMenu_preserves _ _).1, hcw_sess]
    rw [updateSession_ok ttl _ .BROWSING_EVENTS {} hnp]
    have hget2 : getSession (storeSetex w.sessions (sessionKey np) ttl ⟨.IDLE, {}⟩) np
        = ⟨.IDLE, {}⟩ := by
      unfold getSession
      simp only [hnp, storeGet_setex_self]
    rw [hget2]
    rw [storeGet_setex_self]
    rfl
  · intro hcool hup
    show (sendWelcomeMenu (wClearSession ttl (ensureUser w phone name).1 np) np).outbox = _
    unfold sendWelcomeMenu
    rw [hnp]
    simp only [hcw_last, hcw_now, hcw_ev, hcool]
    rw [if_neg (by simp), if_neg hup]
    simp [hcw_ob]
  · intro hcool hup
    show (sendWelcomeMenu (wClearSession ttl (ensureUser w phone name).1 np) np).outbox = _
    unfold sendWelcomeMenu
    rw [hnp]
    simp only [hcw_last, hcw_now, hcw_ev, hcool]
    rw [if_neg (by simp), if_pos hup]
    simp [hcw_ob]
  · intro hcool
    show (sendWelcomeMenu (wClearSession ttl (ensureUser w phone name).1 np) np).outbox = _
    unfold sendWelcomeMenu
    rw [hnp]
    simp only [hcw_last, hcw_now, hcw_ev, hcool]
    simp [hcw_ob]

def trivialSubs : SubHandlers := ⟨id, id, id, id, id, id⟩

/-- A world in state `AWAITING_STK_PUSH` with a pending booking and one
active upcoming event, where a category/welcome menu was sent 1 ms ago
(cooldown active). -/
def cwCX : ChatWorld :=
  { sessions := [(sessionKey "254712345678", ⟨.AWAITING_STK_PUSH, {}⟩, 600)],
    lastWelcomeMenuSent := [("254712345678", 999)],
    now := 1000,
    users := [⟨"254712345678", "254712345678", none⟩],
    events := [⟨"E1", "Title", "Venue", true, 5000⟩],
    db := ⟨[⟨"BK1", "U1", "T1", 1, .AWAITING_PAYMENT, none, none⟩], [⟨"T1", "E1", 10, 0⟩], []⟩,
    outbox := [] }

/-- C10 counterexample: a non-global message in `AWAITING_STK_PUSH` with an
active upcoming event available, but with the 5-second anti-loop cooldown
active — nothing at all is sent, refuting the unconditional "sends the
legacy event-list welcome menu". -/
theorem C10_counterexample :
    (handleMessage 600 trivialSubs cwCX "254712345678" none ⟨"hello", none⟩).outbox = []
    ∧ storeGet cwCX.sessions (sessionKey "254712345678")
        = some (⟨.AWAITING_STK_PUSH, {}⟩, 600)
    ∧ GLOBAL_COMMANDS.contains (normalizeCommand "hello") = false
    ∧ upcomingEvents cwCX.events cwCX.now ≠ [] :=
  ⟨by rfl, by rfl, by decide, by decide⟩

/-- The same world with no recent menu send (cooldown inactive). -/
def cwOK : ChatWorld := { cwCX with lastWelcomeMenuSent := [] }

theorem C10_awaiting_stk_default_witness :
    (handleMessage 600 trivialSubs cwOK "254712345678" none ⟨"hello", none⟩).db = cwOK.db
    ∧ storeGet (handleMessage 600 trivialSubs cwOK "254712345678" none
        ⟨"hello", none⟩).sessions (sessionKey "254712345678")
      = some (⟨.BROWSING_EVENTS, {}⟩, 600)
    ∧ (handleMessage 600 trivialSubs cwOK "254712345678" none ⟨"hello", none⟩).outbox
      = cwOK.outbox ++ [.eventList "254712345678" ["E1"]] := by
  have h := C10_awaiting_stk_default 600 trivialSubs cwOK "254712345678" "254712345678"
    none ⟨"hello", none⟩ {} 600 rfl rfl (by decide)
    (handleMessage 600 trivialSubs cwOK "254712345678" none ⟨"hello", none⟩) rfl
  refine ⟨h.1, h.2.1, ?_⟩
  have h3 := h.2.2.1 (by rfl) (by decide)
  simpa using h3

end AccessKE
